import Mathlib

/-!
Shallow embedding of the priority-aware batching queue of
`src/core/scheduler_utils.h` (classes `PriorityQueue`, `PriorityQueue::PolicyQueue`,
the pending-batch `Cursor`, and the shape-compatibility predicate).

The header in `src/` contains the declarations and a handful of inline member
bodies (`Size`, `Empty`, `UnexpiredSize`, `CursorEnd`, `MarkCursor`,
`SetCursorToMark`, `ResetCursor`, the cursor-aggregate accessors); the
out-of-line member definitions (`Enqueue`, `Dequeue`, `ApplyPolicy`,
`ApplyPolicyAtCursor`, `AdvanceCursor`, `IsCursorValid`,
`ReleaseRejectedPayloads`, `CompareWithPendingShape`, the `Cursor` iterator
constructor) are not part of the provided sources.  Wherever a body is missing
it is modelled from the specification, and the doc comment of the definition
says so explicitly.

Machine integers (`uint64_t`, `uint32_t`, `size_t`) are modelled as `Nat`;
none of the modelled computations can overflow in the scenarios considered and
no claim is about wrap-around behaviour.  The injected monotonic clock
(`now_ns()`) is passed explicitly as a `now : Nat` argument.  The C++
`std::map<uint32_t, PolicyQueue>` is modelled as an association list in
iteration (ascending-key) order.
-/

/-- A scheduler payload.  Only the attributes the queue observes are kept:
an identity for the wrapped request, the accounting batch size, the
request-supplied timeout override (`timeout_us`, 0 = none) and the enqueue
timestamp which the queue itself fills in at `Enqueue`. -/
structure Payload where
  request_id : Nat
  batch_size : Nat
  timeout_us : Nat
  enqueue_time_ns : Nat
deriving DecidableEq, Repr

/-- `ModelQueuePolicy::TimeoutAction`. -/
inductive TimeoutAction where
  | REJECT : TimeoutAction
  | DELAY : TimeoutAction
deriving DecidableEq, Repr

/-- The four policy fields of `ModelQueuePolicy` consumed by the queue. -/
structure ModelQueuePolicy where
  timeout_action : TimeoutAction
  default_timeout_microseconds : Nat
  allow_timeout_override : Bool
  max_queue_size : Nat
deriving DecidableEq, Repr

/-- Status kinds surfaced by the queue operations (§7 of the spec). -/
inductive Status where
  | Ok : Status
  | QueueFull : Status
  | InvalidPriority : Status
  | Empty : Status
  | Internal : Status
deriving DecidableEq, Repr

/-- `PriorityQueue::PolicyQueue`: a single-priority FIFO with the parallel
timestamp sequence and the delayed/rejected side buffers
(`scheduler_utils.h` lines 190-200). -/
structure PolicyQueue where
  timeout_action_ : TimeoutAction
  default_timeout_us_ : Nat
  allow_timeout_override_ : Bool
  max_queue_size_ : Nat
  timeout_timestamp_ns_ : List Nat
  queue_ : List Payload
  delayed_queue_ : List Payload
  rejected_queue_ : List Payload
deriving DecidableEq, Repr

/-- Number of requests in the queue, rejected requests not included
(inline body in the header: `queue_.size() + delayed_queue_.size()`). -/
def PolicyQueue.Size (q : PolicyQueue) : Nat :=
  q.queue_.length + q.delayed_queue_.length

/-- Whether the queue is empty (inline body in the header: `Size() == 0`). -/
def PolicyQueue.Empty (q : PolicyQueue) : Bool :=
  q.Size == 0

/-- Number of unexpired requests (inline body in the header:
`queue_.size()`). -/
def PolicyQueue.UnexpiredSize (q : PolicyQueue) : Nat :=
  q.queue_.length

/-- A payload/timestamp entry counts as expired when its stored deadline is
nonzero and has passed (`timeout_timestamp != 0 && timeout_timestamp <= now`). -/
def expiredAt (now ts : Nat) : Bool :=
  decide (ts ≠ 0 ∧ ts ≤ now)

/-- Modelled from the spec: the body of `PolicyQueue::Enqueue` is not in the
provided sources.  Per §4.1: fail with `QueueFull` when `max_queue_size > 0`
and `size() >= max_queue_size`; otherwise the effective timeout is the
payload's `timeout_us` when `allow_timeout_override` holds and it is positive,
else `default_timeout_us`; a zero effective timeout stores timestamp 0, else
`now_ns + effective_timeout_us * 1000`; the payload (with its enqueue time
set) is appended to `active` and the timestamp to the parallel sequence. -/
def PolicyQueue.Enqueue (q : PolicyQueue) (now : Nat) (p : Payload) :
    Except Status PolicyQueue :=
  if 0 < q.max_queue_size_ ∧ q.max_queue_size_ ≤ q.Size then
    Except.error Status.QueueFull
  else
    let eff :=
      if q.allow_timeout_override_ = true ∧ 0 < p.timeout_us then p.timeout_us
      else q.default_timeout_us_
    let ts := if eff = 0 then 0 else now + eff * 1000
    Except.ok
      { q with
        queue_ := q.queue_ ++ [{ p with enqueue_time_ns := now }],
        timeout_timestamp_ns_ := q.timeout_timestamp_ns_ ++ [ts] }

/-- Modelled from the spec: the body of `PolicyQueue::Dequeue` is not in the
provided sources.  Per §4.1: pop from the `active` front when it is non-empty
and its entry has not expired (timestamp 0 or strictly greater than `now`);
otherwise pop from the `delayed` front.  The spec's precondition is
`size() > 0`; a state in which the designated sub-sequence to pop from is
empty yields `none`. -/
def PolicyQueue.Dequeue (q : PolicyQueue) (now : Nat) :
    Option (Payload × PolicyQueue) :=
  match q.queue_ with
  | p :: t =>
    if q.timeout_timestamp_ns_.headD 0 = 0 ∨ now < q.timeout_timestamp_ns_.headD 0 then
      some (p, { q with queue_ := t,
                        timeout_timestamp_ns_ := q.timeout_timestamp_ns_.tail })
    else
      match q.delayed_queue_ with
      | d :: dt => some (d, { q with delayed_queue_ := dt })
      | [] => none
  | [] =>
    match q.delayed_queue_ with
    | d :: dt => some (d, { q with delayed_queue_ := dt })
    | [] => none

/-- Result of running the `ApplyPolicy` removal loop over the part of
`active` (zipped with its parallel timestamps) at and after the inspected
index. -/
structure PolicyStep where
  kept : List (Payload × Nat)
  newDelayed : List Payload
  newRejected : List Payload
  rejCount : Nat
  rejBatch : Nat
deriving DecidableEq, Repr

/-- Modelled from the spec: the removal loop of `PolicyQueue::ApplyPolicy`
(§4.1).  The entry at the inspected index is the head of the given suffix;
while it is expired it is moved to the side buffer selected by the timeout
action (erasing it from `active` and the timestamp sequence, so the next
entry slides into the same index) and the loop re-evaluates; it stops at the
first non-expired entry or when `active` is exhausted. -/
def applyPolicySuffix (act : TimeoutAction) (now : Nat) :
    List (Payload × Nat) → PolicyStep
  | [] => ⟨[], [], [], 0, 0⟩
  | pt :: rest =>
    if expiredAt now pt.2 then
      let r := applyPolicySuffix act now rest
      match act with
      | TimeoutAction.DELAY =>
        ⟨r.kept, pt.1 :: r.newDelayed, r.newRejected, r.rejCount, r.rejBatch⟩
      | TimeoutAction.REJECT =>
        ⟨r.kept, r.newDelayed, pt.1 :: r.newRejected, r.rejCount + 1,
          r.rejBatch + pt.1.batch_size⟩
    else ⟨pt :: rest, [], [], 0, 0⟩

/-- Modelled from the spec: the body of `PolicyQueue::ApplyPolicy` is not in
the provided sources.  Per §4.1 it runs the removal loop at `idx`, appends the
removed entries to `delayed` (action `DELAY`, stored timestamp dropped) or to
`rejected` (action `REJECT`, incrementing the rejected count and batch size),
and reports whether `idx` still points at a payload of this level afterwards
(`active` and `delayed` indexed jointly, as `At` does). -/
def PolicyQueue.ApplyPolicy (q : PolicyQueue) (now idx : Nat) :
    PolicyQueue × Nat × Nat × Bool :=
  let zs := q.queue_.zip q.timeout_timestamp_ns_
  let r := applyPolicySuffix q.timeout_action_ now (zs.drop idx)
  let newZs := zs.take idx ++ r.kept
  let q' : PolicyQueue :=
    { q with
      queue_ := newZs.map Prod.fst,
      timeout_timestamp_ns_ := newZs.map Prod.snd,
      delayed_queue_ := q.delayed_queue_ ++ r.newDelayed,
      rejected_queue_ := q.rejected_queue_ ++ r.newRejected }
  (q', r.rejCount, r.rejBatch, decide (idx < q'.Size))

/-- Modelled from the spec: the body of `PolicyQueue::ReleaseRejectedQueue`
is not in the provided sources.  It moves the rejected buffer out, leaving it
empty. -/
def PolicyQueue.ReleaseRejectedQueue (q : PolicyQueue) :
    List Payload × PolicyQueue :=
  (q.rejected_queue_, { q with rejected_queue_ := [] })

/-- Modelled from the spec: the body of `PolicyQueue::At` is not in the
provided sources.  The header's signature takes a single index and the cursor
uses it for both sub-sequences, so positions index `active` followed by
`delayed`. -/
def PolicyQueue.At (q : PolicyQueue) (idx : Nat) : Option Payload :=
  if idx < q.queue_.length then q.queue_[idx]?
  else q.delayed_queue_[idx - q.queue_.length]?

/-- Modelled from the spec: the body of `PolicyQueue::TimeoutAt` is not in
the provided sources.  Entries of `active` report their stored timestamp;
entries of `delayed` have their timeout cleared and report 0 (§3 invariant 4). -/
def PolicyQueue.TimeoutAt (q : PolicyQueue) (idx : Nat) : Nat :=
  if idx < q.queue_.length then q.timeout_timestamp_ns_.getD idx 0 else 0

/-- The pending-batch cursor (`PriorityQueue::Cursor`).  The level iterator is
modelled by the priority-level key it points at. -/
structure Cursor where
  curr_level_ : Nat
  queue_idx_ : Nat
  at_delayed_queue_ : Bool
  pending_batch_closest_timeout_ns_ : Nat
  pending_batch_oldest_enqueue_time_ns_ : Nat
  pending_batch_count_ : Nat
  valid_ : Bool
deriving DecidableEq, Repr

/-- `PriorityQueue`: the per-level map (in ascending key order), the cached
total size, the level hints and the two cursors (`scheduler_utils.h`
lines 230-239). -/
structure PriorityQueue where
  queues_ : List (Nat × PolicyQueue)
  size_ : Nat
  front_priority_level_ : Nat
  last_priority_level_ : Nat
  pending_cursor_ : Cursor
  current_mark_ : Cursor
deriving DecidableEq, Repr

/-- First-match association lookup over the level list (models
`std::map::find`). -/
def lookupLevel : List (Nat × PolicyQueue) → Nat → Option PolicyQueue
  | [], _ => none
  | kq :: rest, k => if kq.1 = k then some kq.2 else lookupLevel rest k

/-- Replace the entry of the given level (models writing through a
`std::map` iterator). -/
def setLevel : List (Nat × PolicyQueue) → Nat → PolicyQueue →
    List (Nat × PolicyQueue)
  | [], _, _ => []
  | kq :: rest, k, q => if kq.1 = k then (k, q) :: rest else kq :: setLevel rest k q

/-- Key of the first level whose `Size` is nonzero. -/
def firstNonEmptyKey : List (Nat × PolicyQueue) → Option Nat
  | [] => none
  | kq :: rest => if kq.2.Size ≠ 0 then some kq.1 else firstNonEmptyKey rest

/-- Key of the first non-empty level strictly after the given level in map
order. -/
def nextNonEmptyAfter (qs : List (Nat × PolicyQueue)) (lvl : Nat) : Option Nat :=
  firstNonEmptyKey ((qs.dropWhile (fun kq => kq.1 ≠ lvl)).tail)

/-- `PriorityQueue::Size` (inline body in the header: returns the cached
`size_`). -/
def PriorityQueue.Size (pq : PriorityQueue) : Nat :=
  pq.size_

/-- `PriorityQueue::Empty` (inline body in the header). -/
def PriorityQueue.Empty (pq : PriorityQueue) : Bool :=
  pq.Size == 0

/-- Invalidate both cursors, as Enqueue/Dequeue do (§4.2: they set the valid
flag of the pending cursor and of the marker to false). -/
def PriorityQueue.invalidate (pq : PriorityQueue) : PriorityQueue :=
  { pq with
    pending_cursor_ := { pq.pending_cursor_ with valid_ := false },
    current_mark_ := { pq.current_mark_ with valid_ := false } }

/-- Modelled from the spec: the body of `PriorityQueue::Enqueue` is not in the
provided sources.  Per §4.2: route to the level's `PolicyQueue::Enqueue`
(undefined level: `InvalidPriority`); on success bump `size_` and the level
hints; the call invalidates the pending cursor and the marker. -/
def PriorityQueue.Enqueue (pq : PriorityQueue) (lvl : Nat) (p : Payload)
    (now : Nat) : Status × PriorityQueue :=
  match lookupLevel pq.queues_ lvl with
  | none => (Status.InvalidPriority, pq.invalidate)
  | some q =>
    match q.Enqueue now p with
    | Except.error s => (s, pq.invalidate)
    | Except.ok q' =>
      (Status.Ok,
        { pq.invalidate with
          queues_ := setLevel pq.queues_ lvl q',
          size_ := pq.size_ + 1,
          front_priority_level_ := min pq.front_priority_level_ lvl,
          last_priority_level_ := max pq.last_priority_level_ lvl })

/-- Pop from the first non-empty level in map order (the body of
`PriorityQueue::Dequeue` delegates to the level's `PolicyQueue::Dequeue`). -/
def dequeueLevels (now : Nat) :
    List (Nat × PolicyQueue) → Option (Payload × List (Nat × PolicyQueue))
  | [] => none
  | (k, q) :: rest =>
    if q.Size = 0 then
      match dequeueLevels now rest with
      | some (p, rest') => some (p, (k, q) :: rest')
      | none => none
    else
      match q.Dequeue now with
      | some (p, q') => some (p, (k, q') :: rest)
      | none => none

/-- Modelled from the spec: the body of `PriorityQueue::Dequeue` is not in the
provided sources.  Per §4.2: fail with `Empty` when `size == 0`; otherwise pop
from the lowest-numbered non-empty level, decrement `size_`, refresh the front
hint, and invalidate the cursors.  The state in which the selected level
cannot pop (expired `active` front with empty `delayed`) is surfaced as
`Internal`. -/
def PriorityQueue.Dequeue (pq : PriorityQueue) (now : Nat) :
    Except Status Payload × PriorityQueue :=
  if pq.size_ = 0 then (Except.error Status.Empty, pq.invalidate)
  else
    match dequeueLevels now pq.queues_ with
    | none => (Except.error Status.Internal, pq.invalidate)
    | some (p, qs') =>
      (Except.ok p,
        { pq.invalidate with
          queues_ := qs',
          size_ := pq.size_ - 1,
          front_priority_level_ :=
            (firstNonEmptyKey qs').getD pq.front_priority_level_ })

/-- Modelled from the spec: the body of
`PriorityQueue::ReleaseRejectedPayloads` is not in the provided sources.  It
returns one sub-sequence per priority level in level order, each the level's
rejected buffer moved out (left empty). -/
def PriorityQueue.ReleaseRejectedPayloads (pq : PriorityQueue) :
    List (List Payload) × PriorityQueue :=
  (pq.queues_.map (fun kq => kq.2.rejected_queue_),
   { pq with
     queues_ := pq.queues_.map (fun kq => (kq.1, { kq.2 with rejected_queue_ := [] })) })

/-- `UINT64_MAX`, the sentinel the cursor aggregates start from. -/
def UINT64MAX : Nat := 2 ^ 64 - 1

/-- Modelled from the spec: the `Cursor(PriorityQueues::iterator)` constructor
body is not in the provided sources.  Per §4.2 `reset_cursor` it represents an
empty pending batch positioned at the start of the given level. -/
def Cursor.start (lvl : Nat) : Cursor :=
  { curr_level_ := lvl, queue_idx_ := 0, at_delayed_queue_ := false,
    pending_batch_closest_timeout_ns_ := UINT64MAX,
    pending_batch_oldest_enqueue_time_ns_ := UINT64MAX,
    pending_batch_count_ := 0, valid_ := true }

/-- `PriorityQueue::ResetCursor` (inline body in the header:
`pending_cursor_ = Cursor(queues_.begin())`, i.e. the cursor restarts at the
first level of the map). -/
def PriorityQueue.ResetCursor (pq : PriorityQueue) : PriorityQueue :=
  { pq with
    pending_cursor_ := Cursor.start ((pq.queues_.head?.map Prod.fst).getD 0) }

/-- `PriorityQueue::MarkCursor` (inline body in the header). -/
def PriorityQueue.MarkCursor (pq : PriorityQueue) : PriorityQueue :=
  { pq with current_mark_ := pq.pending_cursor_ }

/-- `PriorityQueue::SetCursorToMark` (inline body in the header). -/
def PriorityQueue.SetCursorToMark (pq : PriorityQueue) : PriorityQueue :=
  { pq with pending_cursor_ := pq.current_mark_ }

/-- Modelled from the spec: the body of `PriorityQueue::IsCursorValid` is not
in the provided sources.  Per §4.2 it returns the cached valid flag. -/
def PriorityQueue.IsCursorValid (pq : PriorityQueue) : Bool :=
  pq.pending_cursor_.valid_

/-- `PriorityQueue::CursorEnd` (inline body in the header:
`pending_batch_count_ == size_`). -/
def PriorityQueue.CursorEnd (pq : PriorityQueue) : Bool :=
  pq.pending_cursor_.pending_batch_count_ == pq.size_

/-- `PriorityQueue::PendingBatchCount` (inline body in the header). -/
def PriorityQueue.PendingBatchCount (pq : PriorityQueue) : Nat :=
  pq.pending_cursor_.pending_batch_count_

/-- `PriorityQueue::OldestEnqueueTime` (inline body in the header). -/
def PriorityQueue.OldestEnqueueTime (pq : PriorityQueue) : Nat :=
  pq.pending_cursor_.pending_batch_oldest_enqueue_time_ns_

/-- `PriorityQueue::ClosestTimeout` (inline body in the header). -/
def PriorityQueue.ClosestTimeout (pq : PriorityQueue) : Nat :=
  pq.pending_cursor_.pending_batch_closest_timeout_ns_

/-- `PriorityQueue::PayloadAtCursor` (inline body in the header:
`curr_it_->second.At(queue_idx_)`), `none` when the cursor does not point at a
payload. -/
def PriorityQueue.PayloadAtCursor (pq : PriorityQueue) : Option Payload :=
  match lookupLevel pq.queues_ pq.pending_cursor_.curr_level_ with
  | some q => q.At pq.pending_cursor_.queue_idx_
  | none => none

/-- The stored timeout of the payload at the cursor
(`curr_it_->second.TimeoutAt(queue_idx_)`), 0 when the cursor does not point
at an `active` payload. -/
def PriorityQueue.TimeoutAtCursor (pq : PriorityQueue) : Nat :=
  match lookupLevel pq.queues_ pq.pending_cursor_.curr_level_ with
  | some q => q.TimeoutAt pq.pending_cursor_.queue_idx_
  | none => 0

/-- Modelled from the spec: the level walk of
`PriorityQueue::ApplyPolicyAtCursor` (§4.2).  The current level's
`ApplyPolicy` runs at the cursor index; when that level is exhausted past the
index the walk moves to the following levels at index 0 (an empty level is a
no-op), stopping at the first level that still has a payload at the index.
Returns the updated levels, the stopping position (none when every level is
exhausted), and the accumulated rejected count and rejected batch size. -/
def applyCursorLevels (now : Nat) :
    List (Nat × PolicyQueue) → Nat →
    List (Nat × PolicyQueue) × Option (Nat × Nat) × Nat × Nat
  | [], _ => ([], none, 0, 0)
  | (k, q) :: rest, idx =>
    let r := q.ApplyPolicy now idx
    if r.2.2.2 then ((k, r.1) :: rest, some (k, idx), r.2.1, r.2.2.1)
    else
      let w := applyCursorLevels now rest 0
      ((k, r.1) :: w.1, w.2.1, r.2.1 + w.2.2.1, r.2.2.1 + w.2.2.2)

/-- Modelled from the spec: the body of `PriorityQueue::ApplyPolicyAtCursor`
is not in the provided sources.  Per §4.2 it applies the queue policy from the
cursor position onward, never advancing past a still-pending payload, updates
the cursor to the stopping position, subtracts the rejected entries from the
cached `size_`, and returns the total batch size of the newly rejected
requests. -/
def PriorityQueue.ApplyPolicyAtCursor (pq : PriorityQueue) (now : Nat) :
    PriorityQueue × Nat :=
  let c := pq.pending_cursor_
  let pre := pq.queues_.takeWhile (fun kq => kq.1 ≠ c.curr_level_)
  let rest := pq.queues_.dropWhile (fun kq => kq.1 ≠ c.curr_level_)
  let w := applyCursorLevels now rest c.queue_idx_
  let qs' := pre ++ w.1
  let c' : Cursor :=
    match w.2.1 with
    | some ki =>
      { c with
        curr_level_ := ki.1, queue_idx_ := ki.2,
        at_delayed_queue_ :=
          match lookupLevel qs' ki.1 with
          | some qq => decide (qq.UnexpiredSize ≤ ki.2)
          | none => false }
    | none => c
  ({ pq with queues_ := qs', size_ := pq.size_ - w.2.2.1, pending_cursor_ := c' },
   w.2.2.2)

/-- Modelled from the spec: the body of `PriorityQueue::AdvanceCursor` is not
in the provided sources.  Per §4.2: a no-op at the end; otherwise the payload
just passed updates the aggregates (count, oldest enqueue time, closest
nonzero timeout) and the index steps forward, rolling to the next non-empty
level when the current level is exhausted. -/
def PriorityQueue.AdvanceCursor (pq : PriorityQueue) : PriorityQueue :=
  if pq.CursorEnd = true then pq
  else
    let c := pq.pending_cursor_
    match lookupLevel pq.queues_ c.curr_level_ with
    | none => pq
    | some q =>
      match q.At c.queue_idx_ with
      | none => pq
      | some p =>
        let ts := q.TimeoutAt c.queue_idx_
        let c1 : Cursor :=
          { c with
            pending_batch_count_ := c.pending_batch_count_ + 1,
            pending_batch_oldest_enqueue_time_ns_ :=
              min c.pending_batch_oldest_enqueue_time_ns_ p.enqueue_time_ns,
            pending_batch_closest_timeout_ns_ :=
              if ts ≠ 0 then min c.pending_batch_closest_timeout_ns_ ts
              else c.pending_batch_closest_timeout_ns_ }
        let idx2 := c.queue_idx_ + 1
        if idx2 < q.Size then
          { pq with pending_cursor_ :=
            { c1 with queue_idx_ := idx2,
                      at_delayed_queue_ := decide (q.UnexpiredSize ≤ idx2) } }
        else
          match nextNonEmptyAfter pq.queues_ c.curr_level_ with
          | some k2 =>
            { pq with pending_cursor_ :=
              { c1 with curr_level_ := k2, queue_idx_ := 0,
                        at_delayed_queue_ :=
                          match lookupLevel pq.queues_ k2 with
                          | some q2 => decide (q2.UnexpiredSize = 0)
                          | none => false } }
          | none => { pq with pending_cursor_ := { c1 with queue_idx_ := idx2 } }

/-- The default queue policy (`REJECT`, no timeout, no override, unbounded). -/
def defaultModelQueuePolicy : ModelQueuePolicy :=
  { timeout_action := TimeoutAction.REJECT, default_timeout_microseconds := 0,
    allow_timeout_override := false, max_queue_size := 0 }

/-- A fresh `PolicyQueue` configured with the given policy. -/
def PolicyQueue.init (pol : ModelQueuePolicy) : PolicyQueue :=
  { timeout_action_ := pol.timeout_action,
    default_timeout_us_ := pol.default_timeout_microseconds,
    allow_timeout_override_ := pol.allow_timeout_override,
    max_queue_size_ := pol.max_queue_size,
    timeout_timestamp_ns_ := [], queue_ := [], delayed_queue_ := [],
    rejected_queue_ := [] }

/-- The default-constructed cursor.  The C++ default constructor leaves the
flag indeterminate; the model starts it out invalid (no claim depends on the
pre-first-reset flag). -/
def Cursor.init : Cursor :=
  { curr_level_ := 0, queue_idx_ := 0, at_delayed_queue_ := false,
    pending_batch_closest_timeout_ns_ := 0,
    pending_batch_oldest_enqueue_time_ns_ := 0,
    pending_batch_count_ := 0, valid_ := false }

/-- First-match association lookup over a policy override map. -/
def lookupPolicy : List (Nat × ModelQueuePolicy) → Nat → Option ModelQueuePolicy
  | [], _ => none
  | km :: rest, k => if km.1 = k then some km.2 else lookupPolicy rest k

/-- Modelled from the spec: the default `PriorityQueue` constructor creates a
single level 1 with the default policy. -/
def PriorityQueue.initDefault : PriorityQueue :=
  { queues_ := [(1, PolicyQueue.init defaultModelQueuePolicy)], size_ := 0,
    front_priority_level_ := 1, last_priority_level_ := 1,
    pending_cursor_ := Cursor.init, current_mark_ := Cursor.init }

/-- Modelled from the spec: the parametric `PriorityQueue` constructor creates
levels `1..=priority_levels` in ascending order, each with its override from
the policy map when present, else the default policy. -/
def PriorityQueue.initWithPolicies (defPol : ModelQueuePolicy)
    (priority_levels : Nat) (m : List (Nat × ModelQueuePolicy)) : PriorityQueue :=
  { queues_ :=
      (List.range priority_levels).map
        (fun i => (i + 1, PolicyQueue.init ((lookupPolicy m (i + 1)).getD defPol))),
    size_ := 0, front_priority_level_ := 1,
    last_priority_level_ := priority_levels,
    pending_cursor_ := Cursor.init, current_mark_ := Cursor.init }

/-- Modelled from the spec: the body of `CompareWithPendingShape` is not in
the provided sources.  Per §4.3 it fetches, for each tensor recorded in the
pending map, the candidate's shape and shape-tensor values through the peek
function and demands exact element-wise equality (including length) of both
vectors; any difference yields false.  The peek function is modelled total,
as the claim quantifies over fetched vectors. -/
def CompareWithPendingShape (runner_id : Int) (payload : Payload)
    (OnPeek : Int → Payload → String → List Int × List Int)
    (pending_batch_shapes : List (String × (List Int × List Int))) : Bool :=
  pending_batch_shapes.all (fun e =>
    decide ((OnPeek runner_id payload e.1).1 = e.2.1) &&
    decide ((OnPeek runner_id payload e.1).2 = e.2.2))

/-- Repeatedly dequeue, one call per clock reading, collecting the returned
payloads until a call fails. -/
def PriorityQueue.drain : PriorityQueue → List Nat → List Payload
  | _, [] => []
  | pq, now :: rest =>
    match pq.Dequeue now with
    | (Except.ok p, pq') => p :: pq'.drain rest
    | (Except.error _, _) => []

/-- The payloads of one level in dispatch order: `active` then `delayed`. -/
def PolicyQueue.contents (q : PolicyQueue) : List Payload :=
  q.queue_ ++ q.delayed_queue_

/-- The payloads of a level list in dispatch order: levels in map order, each
`active` then `delayed`. -/
def levelsContents : List (Nat × PolicyQueue) → List Payload
  | [] => []
  | kq :: rest => kq.2.contents ++ levelsContents rest

/-- All payloads of the queue in the guaranteed dispatch order. -/
def PriorityQueue.contents (pq : PriorityQueue) : List Payload :=
  levelsContents pq.queues_

/-- Sum of the per-level sizes (`active` plus `delayed` of every level). -/
def levelsSize : List (Nat × PolicyQueue) → Nat
  | [] => 0
  | kq :: rest => kq.2.Size + levelsSize rest

/-- Cursor-only operations a batcher may run between `MarkCursor` and
`SetCursorToMark`: advancing the cursor and applying the policy at the
cursor. -/
inductive CursorOnlyOp where
  | adv : CursorOnlyOp
  | app (now : Nat) : CursorOnlyOp
deriving DecidableEq, Repr

/-- Run a sequence of cursor-only operations. -/
def runCursorOps : PriorityQueue → List CursorOnlyOp → PriorityQueue
  | pq, [] => pq
  | pq, CursorOnlyOp.adv :: rest => runCursorOps pq.AdvanceCursor rest
  | pq, CursorOnlyOp.app n :: rest => runCursorOps (pq.ApplyPolicyAtCursor n).1 rest

/-! Concrete states used to instantiate the theorems. -/

/-- A concrete payload (batch size 4, no timeout override). -/
def exPayloadA : Payload := ⟨1, 4, 0, 0⟩

/-- A concrete payload (batch size 2, no timeout override). -/
def exPayloadB : Payload := ⟨2, 2, 0, 0⟩

/-- A concrete payload carrying its own timeout override of 30 microseconds. -/
def exPayloadC : Payload := ⟨3, 1, 30, 0⟩

/-- The policy of scenario S6: `{REJECT, 0, false, max=2}`. -/
def exPolicyMax2 : ModelQueuePolicy := ⟨TimeoutAction.REJECT, 0, false, 2⟩

/-- The policy of scenario S3: `{REJECT, default_timeout_us=1000, override=false, max=0}`. -/
def exPolicyReject : ModelQueuePolicy := ⟨TimeoutAction.REJECT, 1000, false, 0⟩

/-- The policy of scenario S4 (with override allowed): `{DELAY, 1000, true, 0}`. -/
def exPolicyDelay : ModelQueuePolicy := ⟨TimeoutAction.DELAY, 1000, true, 0⟩

/-- A max-size-2 level already holding two payloads. -/
def exFullQueue : PolicyQueue :=
  { PolicyQueue.init exPolicyMax2 with
    queue_ := [exPayloadA, exPayloadB], timeout_timestamp_ns_ := [0, 0] }

/-- A priority queue whose single level is `exFullQueue`. -/
def exPQFull : PriorityQueue :=
  { PriorityQueue.initDefault with queues_ := [(1, exFullQueue)], size_ := 2 }

/-- A `DELAY` level holding two expired payloads (enqueued at t=0 with the
1000us default timeout, so both deadlines are 1000000 ns). -/
def exDelayQueue : PolicyQueue :=
  { PolicyQueue.init exPolicyDelay with
    queue_ := [exPayloadA, exPayloadB], timeout_timestamp_ns_ := [1000000, 1000000] }

/-- A `REJECT` level holding two expired payloads. -/
def exRejectQueue : PolicyQueue :=
  { PolicyQueue.init exPolicyReject with
    queue_ := [exPayloadA, exPayloadB], timeout_timestamp_ns_ := [1000000, 1000000] }

/-- The result of enqueueing `exPayloadC` at t=7 into a fresh `DELAY` level. -/
def exEnqueueResult : PolicyQueue :=
  (((PolicyQueue.init exPolicyDelay).Enqueue 7 exPayloadC).toOption).getD
    (PolicyQueue.init exPolicyDelay)

/-- A queue with one expired `active` entry ahead of two `delayed` entries. -/
def exStuckQueue : PolicyQueue :=
  { PolicyQueue.init exPolicyDelay with
    queue_ := [exPayloadC], timeout_timestamp_ns_ := [5],
    delayed_queue_ := [exPayloadA, exPayloadB] }

/-- A two-level priority queue holding three payloads. -/
def exPQTwoLevels : PriorityQueue :=
  { PriorityQueue.initWithPolicies defaultModelQueuePolicy 2 [] with
    queues_ :=
      [(1, { PolicyQueue.init defaultModelQueuePolicy with
             queue_ := [exPayloadA], timeout_timestamp_ns_ := [0] }),
       (2, { PolicyQueue.init defaultModelQueuePolicy with
             queue_ := [exPayloadB], timeout_timestamp_ns_ := [0],
             delayed_queue_ := [exPayloadC] })],
    size_ := 3 }

/-- A two-level queue with a freshly reset (hence valid) cursor. -/
def exPQMark : PriorityQueue := exPQTwoLevels.ResetCursor

/-- A REJECT level holding one expired entry (deadline 1000000) ahead of one
entry with no deadline, behind a freshly reset cursor. -/
def exPQReject : PriorityQueue :=
  ({ PriorityQueue.initDefault with
     queues_ := [(1, { PolicyQueue.init exPolicyReject with
                       queue_ := [exPayloadA, exPayloadC],
                       timeout_timestamp_ns_ := [1000000, 0] })],
     size_ := 2 }).ResetCursor

/-! Helper lemmas. -/

theorem length_countP_split (p : Nat → Bool) :
    ∀ l : List Nat, l.length = l.countP p + l.countP (fun a => !p a) := by
  intro l
  induction l with
  | nil => rfl
  | cons a t ih =>
    by_cases h : p a = true <;>
      simp [List.countP_cons, h, ih] <;> omega

theorem all_map_const_nil {α : Type} (l : List α) :
    (l.map (fun _ => ([] : List Payload))).all (fun x => x.isEmpty) = true := by
  induction l with
  | nil => rfl
  | cons a t ih => exact ih

theorem map_rejected_after_clear (qs : List (Nat × PolicyQueue)) :
    (qs.map (fun kq => (kq.1, { kq.2 with rejected_queue_ := ([] : List Payload) }))).map
      (fun kq => kq.2.rejected_queue_) = qs.map (fun _ => []) := by
  induction qs with
  | nil => rfl
  | cons a t ih => simp [ih]

/-! Claim theorems. -/

/-- C4: for a `PolicyQueue` whose policy has `max_queue_size > 0`, `Enqueue`
on a state with `size() >= max_queue_size` fails with `QueueFull`, and the
failing payload is retained nowhere: at the `PriorityQueue` level the call
reports `QueueFull` and leaves every level (active, delayed and rejected
buffers included) unchanged. -/
theorem C4_queue_full :
    (∀ (q : PolicyQueue) (now : Nat) (p : Payload),
      0 < q.max_queue_size_ → q.max_queue_size_ ≤ q.Size →
      q.Enqueue now p = Except.error Status.QueueFull) ∧
    (∀ (pq : PriorityQueue) (lvl : Nat) (p : Payload) (now : Nat) (q : PolicyQueue),
      lookupLevel pq.queues_ lvl = some q →
      0 < q.max_queue_size_ → q.max_queue_size_ ≤ q.Size →
      (pq.Enqueue lvl p now).1 = Status.QueueFull ∧
      (pq.Enqueue lvl p now).2.queues_ = pq.queues_) := by
  have h1 : ∀ (q : PolicyQueue) (now : Nat) (p : Payload),
      0 < q.max_queue_size_ → q.max_queue_size_ ≤ q.Size →
      q.Enqueue now p = Except.error Status.QueueFull := by
    intro q now p hpos hfull
    simp [PolicyQueue.Enqueue, hpos, hfull]
  refine ⟨h1, ?_⟩
  intro pq lvl p now q hfind hpos hfull
  simp [PriorityQueue.Enqueue, hfind, h1 q now p hpos hfull,
    PriorityQueue.invalidate]

/-- C4 witness: enqueueing a third payload into a max-size-2 level holding
two payloads fails with `QueueFull` and leaves the levels unchanged. -/
theorem C4_queue_full_witness :
    0 < exFullQueue.max_queue_size_ ∧ exFullQueue.max_queue_size_ ≤ exFullQueue.Size ∧
    lookupLevel exPQFull.queues_ 1 = some exFullQueue ∧
    exFullQueue.Enqueue 0 exPayloadC = Except.error Status.QueueFull ∧
    (exPQFull.Enqueue 1 exPayloadC 0).1 = Status.QueueFull ∧
    (exPQFull.Enqueue 1 exPayloadC 0).2.queues_ = exPQFull.queues_ := by
  refine ⟨by decide, by decide, by decide,
    C4_queue_full.1 exFullQueue 0 exPayloadC (by decide) (by decide), ?_, ?_⟩
  · exact (C4_queue_full.2 exPQFull 1 exPayloadC 0 exFullQueue (by decide)
      (by decide) (by decide)).1
  · exact (C4_queue_full.2 exPQFull 1 exPayloadC 0 exFullQueue (by decide)
      (by decide) (by decide)).2

/-- C5: on every successful `PolicyQueue::Enqueue`, the stored timestamp is
0 when the effective timeout (payload override when allowed and positive,
else the default) is 0, and `now_ns + effective_timeout_us * 1000` otherwise;
the payload itself is appended to `active` with its enqueue time set. -/
theorem C5_enqueue_timestamp (q : PolicyQueue) (now : Nat) (p : Payload)
    (q' : PolicyQueue) (h : q.Enqueue now p = Except.ok q') :
    q'.timeout_timestamp_ns_ = q.timeout_timestamp_ns_ ++
      [if (if q.allow_timeout_override_ = true ∧ 0 < p.timeout_us then
            p.timeout_us else q.default_timeout_us_) = 0 then 0
       else now + (if q.allow_timeout_override_ = true ∧ 0 < p.timeout_us then
            p.timeout_us else q.default_timeout_us_) * 1000] ∧
    q'.queue_ = q.queue_ ++ [{ p with enqueue_time_ns := now }] := by
  rw [PolicyQueue.Enqueue] at h
  split at h
  · exact absurd h (by simp)
  · rw [Except.ok.injEq] at h
    subst h
    exact ⟨rfl, rfl⟩

/-- C5 witness: enqueueing a payload with a 30us override at t=7 into a level
with override allowed stores timestamp `7 + 30 * 1000`. -/
theorem C5_enqueue_timestamp_witness :
    (PolicyQueue.init exPolicyDelay).Enqueue 7 exPayloadC =
      Except.ok exEnqueueResult ∧
    exEnqueueResult.timeout_timestamp_ns_ = [7 + 30 * 1000] := by
  refine ⟨rfl, ?_⟩
  have h := C5_enqueue_timestamp (PolicyQueue.init exPolicyDelay) 7 exPayloadC
    exEnqueueResult rfl
  simpa [PolicyQueue.init, exPolicyDelay, exPayloadC] using h.1

/-- C7: `ReleaseRejectedPayloads` returns every level's rejected buffer in
level order and empties them all, so an immediate second call returns only
empty sub-sequences. -/
theorem C7_release_rejected_idempotent : ∀ pq : PriorityQueue,
    pq.ReleaseRejectedPayloads.1 =
      pq.queues_.map (fun kq => kq.2.rejected_queue_) ∧
    (pq.ReleaseRejectedPayloads.2).queues_.map (fun kq => kq.2.rejected_queue_) =
      pq.queues_.map (fun _ => []) ∧
    ((pq.ReleaseRejectedPayloads.2).ReleaseRejectedPayloads.1.all
      (fun l => l.isEmpty)) = true := by
  intro pq
  refine ⟨rfl, ?_, ?_⟩
  · exact map_rejected_after_clear pq.queues_
  · have h : (pq.ReleaseRejectedPayloads.2).ReleaseRejectedPayloads.1 =
        pq.queues_.map (fun _ => ([] : List Payload)) :=
      map_rejected_after_clear pq.queues_
    rw [h]
    exact all_map_const_nil _

/-- C8: `CompareWithPendingShape` returns true exactly when, for every tensor
entry of the pending map, the candidate's shape vector and values vector
fetched through the peek function are element-wise equal (hence of equal
length) to the stored pair. -/
theorem C8_compare_with_pending_shape (runner_id : Int) (payload : Payload)
    (OnPeek : Int → Payload → String → List Int × List Int)
    (pending : List (String × (List Int × List Int))) :
    CompareWithPendingShape runner_id payload OnPeek pending = true ↔
      ∀ e ∈ pending, (OnPeek runner_id payload e.1).1 = e.2.1 ∧
        (OnPeek runner_id payload e.1).2 = e.2.2 := by
  simp [CompareWithPendingShape, List.all_eq_true, Bool.and_eq_true,
    decide_eq_true_eq]

/-- C9: `UnexpiredSize` returns the length of `active` and is independent of
the clock: for any `now`, it equals the number of already-expired entries
plus the number of unexpired ones — lazily expired entries still count. -/
theorem C9_unexpired_size (q : PolicyQueue) (now : Nat)
    (hlen : q.timeout_timestamp_ns_.length = q.queue_.length) :
    q.UnexpiredSize = q.queue_.length ∧
    q.UnexpiredSize =
      q.timeout_timestamp_ns_.countP (fun ts => expiredAt now ts) +
      q.timeout_timestamp_ns_.countP (fun ts => !expiredAt now ts) := by
  refine ⟨rfl, ?_⟩
  rw [PolicyQueue.UnexpiredSize, ← hlen]
  exact length_countP_split (fun ts => expiredAt now ts) q.timeout_timestamp_ns_

/-- C9 witness: a level with one expired and one unexpired entry at t=2000000
still reports both in `UnexpiredSize`. -/
theorem C9_unexpired_size_witness :
    exDelayQueue.timeout_timestamp_ns_.length = exDelayQueue.queue_.length ∧
    exDelayQueue.UnexpiredSize = exDelayQueue.queue_.length ∧
    exDelayQueue.UnexpiredSize =
      exDelayQueue.timeout_timestamp_ns_.countP (fun ts => expiredAt 2000000 ts) +
      exDelayQueue.timeout_timestamp_ns_.countP (fun ts => !expiredAt 2000000 ts) := by
  refine ⟨by decide, ?_, ?_⟩
  · exact (C9_unexpired_size exDelayQueue 2000000 (by decide)).1
  · exact (C9_unexpired_size exDelayQueue 2000000 (by decide)).2

/-- C10: immediately after `ResetCursor` the pending-batch count is 0, so
`CursorEnd` holds exactly when the whole queue is empty; and in every state
whose cached `size_` equals the sum of the per-level sizes, `CursorEnd`
compares the pending-batch count against that total across all priority
levels, not against any single level. -/
theorem C10_cursor_end :
    (∀ pq : PriorityQueue, (pq.ResetCursor).PendingBatchCount = 0) ∧
    (∀ pq : PriorityQueue, ((pq.ResetCursor).CursorEnd = true ↔ pq.Size = 0)) ∧
    (∀ pq : PriorityQueue, pq.size_ = levelsSize pq.queues_ →
      (pq.CursorEnd = true ↔
        pq.PendingBatchCount = levelsSize pq.queues_)) := by
  refine ⟨?_, ?_, ?_⟩
  · intro pq
    rfl
  · intro pq
    show ((0 : Nat) == pq.size_) = true ↔ pq.size_ = 0
    rw [beq_iff_eq]
    exact eq_comm
  · intro pq hsum
    rw [← hsum]
    simp [PriorityQueue.CursorEnd, PriorityQueue.PendingBatchCount]

/-- C10 witness: the default-constructed queue satisfies the size invariant;
after `ResetCursor` the count is 0 and `CursorEnd` holds (the queue is
empty). -/
theorem C10_cursor_end_witness :
    (PriorityQueue.initDefault.ResetCursor).PendingBatchCount = 0 ∧
    ((PriorityQueue.initDefault.ResetCursor).CursorEnd = true ↔
      PriorityQueue.initDefault.Size = 0) ∧
    PriorityQueue.initDefault.size_ = levelsSize PriorityQueue.initDefault.queues_ ∧
    (PriorityQueue.initDefault.CursorEnd = true ↔
      PriorityQueue.initDefault.PendingBatchCount =
        levelsSize PriorityQueue.initDefault.queues_) := by
  refine ⟨C10_cursor_end.1 PriorityQueue.initDefault,
    C10_cursor_end.2.1 PriorityQueue.initDefault, by decide,
    C10_cursor_end.2.2 PriorityQueue.initDefault (by decide)⟩

/-! Cursor-validity helper lemmas for the mark/restore protocol. -/

theorem advanceCursor_mark_valid (pq : PriorityQueue) :
    (pq.AdvanceCursor).current_mark_ = pq.current_mark_ ∧
    (pq.AdvanceCursor).pending_cursor_.valid_ = pq.pending_cursor_.valid_ := by
  refine ⟨?_, ?_⟩ <;> (unfold PriorityQueue.AdvanceCursor; dsimp only; repeat' split) <;> rfl

theorem applyPolicyAtCursor_mark_valid (pq : PriorityQueue) (now : Nat) :
    ((pq.ApplyPolicyAtCursor now).1).current_mark_ = pq.current_mark_ ∧
    ((pq.ApplyPolicyAtCursor now).1).pending_cursor_.valid_ =
      pq.pending_cursor_.valid_ := by
  refine ⟨?_, ?_⟩ <;> (unfold PriorityQueue.ApplyPolicyAtCursor; dsimp only; repeat' split) <;> rfl

theorem runCursorOps_mark_valid :
    ∀ (ops : List CursorOnlyOp) (pq : PriorityQueue),
    (runCursorOps pq ops).current_mark_ = pq.current_mark_ ∧
    (runCursorOps pq ops).pending_cursor_.valid_ = pq.pending_cursor_.valid_ := by
  intro ops
  induction ops with
  | nil => exact fun pq => ⟨rfl, rfl⟩
  | cons op rest ih =>
    intro pq
    cases op with
    | adv =>
      have h1 := advanceCursor_mark_valid pq
      have h2 := ih pq.AdvanceCursor
      exact ⟨h2.1.trans h1.1, h2.2.trans h1.2⟩
    | app n =>
      have h1 := applyPolicyAtCursor_mark_valid pq n
      have h2 := ih (pq.ApplyPolicyAtCursor n).1
      exact ⟨h2.1.trans h1.1, h2.2.trans h1.2⟩

theorem enqueue_invalidates (pq : PriorityQueue) (lvl : Nat) (p : Payload)
    (now : Nat) :
    ((pq.Enqueue lvl p now).2).pending_cursor_.valid_ = false ∧
    ((pq.Enqueue lvl p now).2).current_mark_.valid_ = false := by
  refine ⟨?_, ?_⟩ <;>
    (unfold PriorityQueue.Enqueue PriorityQueue.invalidate; repeat' split) <;> rfl

theorem dequeue_invalidates (pq : PriorityQueue) (now : Nat) :
    ((pq.Dequeue now).2).pending_cursor_.valid_ = false ∧
    ((pq.Dequeue now).2).current_mark_.valid_ = false := by
  refine ⟨?_, ?_⟩ <;>
    (unfold PriorityQueue.Dequeue PriorityQueue.invalidate; repeat' split) <;> rfl

/-- C6 (amended): provided the pending cursor is valid when `MarkCursor` is
called, then for any sequence of cursor-only operations (advance, apply
policy at cursor) between the mark and `SetCursorToMark`, `is_cursor_valid()`
stays true throughout and after restoration, and the restored cursor carries
the identical aggregate triple (pending_batch_count, oldest_enqueue_time,
closest_timeout) it had at the mark; conversely, any `Enqueue` or `Dequeue`
between mark and restore makes `is_cursor_valid()` return false. -/
theorem C6_mark_restore :
    (∀ (pq : PriorityQueue) (ops : List CursorOnlyOp),
      pq.IsCursorValid = true →
      (runCursorOps pq.MarkCursor ops).IsCursorValid = true ∧
      ((runCursorOps pq.MarkCursor ops).SetCursorToMark).IsCursorValid = true ∧
      ((runCursorOps pq.MarkCursor ops).SetCursorToMark).PendingBatchCount =
        pq.PendingBatchCount ∧
      ((runCursorOps pq.MarkCursor ops).SetCursorToMark).OldestEnqueueTime =
        pq.OldestEnqueueTime ∧
      ((runCursorOps pq.MarkCursor ops).SetCursorToMark).ClosestTimeout =
        pq.ClosestTimeout) ∧
    (∀ (pq : PriorityQueue) (ops : List CursorOnlyOp) (lvl : Nat) (p : Payload)
      (now : Nat) (ops2 : List CursorOnlyOp),
      ((runCursorOps ((runCursorOps pq.MarkCursor ops).Enqueue lvl p now).2
        ops2).SetCursorToMark).IsCursorValid = false) ∧
    (∀ (pq : PriorityQueue) (ops : List CursorOnlyOp) (now : Nat)
      (ops2 : List CursorOnlyOp),
      ((runCursorOps ((runCursorOps pq.MarkCursor ops).Dequeue now).2
        ops2).SetCursorToMark).IsCursorValid = false) := by
  refine ⟨?_, ?_, ?_⟩
  · intro pq ops hv
    have hmark : (runCursorOps pq.MarkCursor ops).current_mark_ =
        pq.pending_cursor_ :=
      (runCursorOps_mark_valid ops pq.MarkCursor).1
    have hvalid : (runCursorOps pq.MarkCursor ops).pending_cursor_.valid_ =
        pq.pending_cursor_.valid_ :=
      (runCursorOps_mark_valid ops pq.MarkCursor).2
    refine ⟨hvalid.trans hv, ?_, ?_, ?_, ?_⟩ <;>
      simp only [PriorityQueue.SetCursorToMark, PriorityQueue.IsCursorValid,
        PriorityQueue.PendingBatchCount, PriorityQueue.OldestEnqueueTime,
        PriorityQueue.ClosestTimeout, hmark]
    exact hv
  · intro pq ops lvl p now ops2
    have hinv := (enqueue_invalidates (runCursorOps pq.MarkCursor ops) lvl p now).2
    have hkeep := (runCursorOps_mark_valid ops2
      ((runCursorOps pq.MarkCursor ops).Enqueue lvl p now).2).1
    show (runCursorOps _ ops2).current_mark_.valid_ = false
    rw [hkeep, hinv]
  · intro pq ops now ops2
    have hinv := (dequeue_invalidates (runCursorOps pq.MarkCursor ops) now).2
    have hkeep := (runCursorOps_mark_valid ops2
      ((runCursorOps pq.MarkCursor ops).Dequeue now).2).1
    show (runCursorOps _ ops2).current_mark_.valid_ = false
    rw [hkeep, hinv]

/-- C6 counterexample: a mark immediately followed by a restore — with no
intervening Enqueue, Dequeue or ResetCursor at all — on a state whose cursor
was invalidated by an enqueue before the mark: `is_cursor_valid()` reports
false, not true as the claim states unconditionally. -/
theorem C6_mark_restore_counterexample :
    ((((PriorityQueue.initDefault.ResetCursor).Enqueue 1 exPayloadA
      0).2.MarkCursor).SetCursorToMark).IsCursorValid = false := by
  decide

/-- C6 witness: a freshly reset two-level queue has a valid cursor; after
mark, one advance and restore the cursor is valid and the aggregate triple is
the marked one. -/
theorem C6_mark_restore_witness :
    exPQMark.IsCursorValid = true ∧
    ((runCursorOps exPQMark.MarkCursor [CursorOnlyOp.adv]).SetCursorToMark).IsCursorValid
      = true ∧
    ((runCursorOps exPQMark.MarkCursor
      [CursorOnlyOp.adv]).SetCursorToMark).PendingBatchCount =
      exPQMark.PendingBatchCount := by
  have h := C6_mark_restore.1 exPQMark [CursorOnlyOp.adv] (by decide)
  exact ⟨by decide, h.2.1, h.2.2.1⟩

/-! Characterization of the `ApplyPolicy` removal loop. -/

theorem applyPolicySuffix_eq (act : TimeoutAction) (now : Nat) :
    ∀ l : List (Payload × Nat),
    (applyPolicySuffix act now l).kept =
      l.dropWhile (fun pt => expiredAt now pt.2) ∧
    (applyPolicySuffix act now l).newDelayed =
      (if act = TimeoutAction.DELAY then
        (l.takeWhile (fun pt => expiredAt now pt.2)).map Prod.fst else []) ∧
    (applyPolicySuffix act now l).newRejected =
      (if act = TimeoutAction.REJECT then
        (l.takeWhile (fun pt => expiredAt now pt.2)).map Prod.fst else []) ∧
    (applyPolicySuffix act now l).rejCount =
      (if act = TimeoutAction.REJECT then
        (l.takeWhile (fun pt => expiredAt now pt.2)).length else 0) ∧
    (applyPolicySuffix act now l).rejBatch =
      (if act = TimeoutAction.REJECT then
        ((l.takeWhile (fun pt => expiredAt now pt.2)).map
          (fun pt => pt.1.batch_size)).sum else 0) := by
  intro l
  induction l with
  | nil =>
    refine ⟨rfl, ?_, ?_, ?_, ?_⟩ <;> (cases act <;> rfl)
  | cons a t ih =>
    by_cases hp : expiredAt now a.2
    · cases act with
      | REJECT =>
        simp [applyPolicySuffix, hp, List.dropWhile_cons, List.takeWhile_cons,
          ih.1, ih.2.1, ih.2.2.1, ih.2.2.2.1, ih.2.2.2.2, Nat.add_comm]
      | DELAY =>
        simp [applyPolicySuffix, hp, List.dropWhile_cons, List.takeWhile_cons,
          ih.1, ih.2.1, ih.2.2.1, ih.2.2.2.1, ih.2.2.2.2]
    · cases act <;>
        simp [applyPolicySuffix, hp, List.dropWhile_cons, List.takeWhile_cons]

theorem applyPolicy_components (q : PolicyQueue) (now idx : Nat) :
    (q.ApplyPolicy now idx).1.queue_ =
      ((q.queue_.zip q.timeout_timestamp_ns_).take idx ++
        ((q.queue_.zip q.timeout_timestamp_ns_).drop idx).dropWhile
          (fun pt => expiredAt now pt.2)).map Prod.fst ∧
    (q.ApplyPolicy now idx).1.timeout_timestamp_ns_ =
      ((q.queue_.zip q.timeout_timestamp_ns_).take idx ++
        ((q.queue_.zip q.timeout_timestamp_ns_).drop idx).dropWhile
          (fun pt => expiredAt now pt.2)).map Prod.snd ∧
    (q.ApplyPolicy now idx).1.delayed_queue_ = q.delayed_queue_ ++
      (if q.timeout_action_ = TimeoutAction.DELAY then
        (((q.queue_.zip q.timeout_timestamp_ns_).drop idx).takeWhile
          (fun pt => expiredAt now pt.2)).map Prod.fst else []) ∧
    (q.ApplyPolicy now idx).1.rejected_queue_ = q.rejected_queue_ ++
      (if q.timeout_action_ = TimeoutAction.REJECT then
        (((q.queue_.zip q.timeout_timestamp_ns_).drop idx).takeWhile
          (fun pt => expiredAt now pt.2)).map Prod.fst else []) ∧
    (q.ApplyPolicy now idx).2.1 =
      (if q.timeout_action_ = TimeoutAction.REJECT then
        (((q.queue_.zip q.timeout_timestamp_ns_).drop idx).takeWhile
          (fun pt => expiredAt now pt.2)).length else 0) ∧
    (q.ApplyPolicy now idx).2.2.1 =
      (if q.timeout_action_ = TimeoutAction.REJECT then
        ((((q.queue_.zip q.timeout_timestamp_ns_).drop idx).takeWhile
          (fun pt => expiredAt now pt.2)).map
            (fun pt => pt.1.batch_size)).sum else 0) := by
  have h := applyPolicySuffix_eq q.timeout_action_ now
    ((q.queue_.zip q.timeout_timestamp_ns_).drop idx)
  refine ⟨?_, ?_, ?_, ?_, ?_, ?_⟩ <;> simp only [PolicyQueue.ApplyPolicy]
  · rw [h.1]
  · rw [h.1]
  · rw [h.2.1]
  · rw [h.2.2.1]
  · rw [h.2.2.2.1]
  · rw [h.2.2.2.2]

theorem applyPolicy_ok_eq (q : PolicyQueue) (now idx : Nat) :
    (q.ApplyPolicy now idx).2.2.2 =
      decide (idx < (q.ApplyPolicy now idx).1.Size) := rfl

theorem dropWhile_cons_pred_false {α : Type} (p : α → Bool) :
    ∀ (l : List α) (a : α) (t : List α), l.dropWhile p = a :: t → p a = false := by
  intro l
  induction l with
  | nil => intro a t h; simp [List.dropWhile] at h
  | cons b l' ih =>
    intro a t h
    by_cases hb : p b = true
    · rw [List.dropWhile_cons, if_pos hb] at h
      exact ih a t h
    · rw [List.dropWhile_cons, if_neg hb] at h
      injection h with h1 _
      subst h1
      simpa using hb

theorem getD_append_length {α : Type} (A B : List α) (d : α) :
    (A ++ B).getD A.length d = B.headD d := by
  induction A with
  | nil => cases B <;> rfl
  | cons a t ih => simpa using ih

theorem applyPolicy_ok_unexpired (q : PolicyQueue) (now idx : Nat) :
    (q.ApplyPolicy now idx).1.TimeoutAt idx = 0 ∨
      now < (q.ApplyPolicy now idx).1.TimeoutAt idx := by
  by_cases hlt : idx < (q.ApplyPolicy now idx).1.queue_.length
  case neg =>
    left
    simp [PolicyQueue.TimeoutAt, hlt]
  case pos =>
    obtain ⟨hque, hts, _⟩ := applyPolicy_components q now idx
    have hlenq : (q.ApplyPolicy now idx).1.queue_.length =
        ((q.queue_.zip q.timeout_timestamp_ns_).take idx).length +
        (((q.queue_.zip q.timeout_timestamp_ns_).drop idx).dropWhile
          (fun pt => expiredAt now pt.2)).length := by
      rw [hque, List.length_map, List.length_append]
    rcases Nat.lt_or_ge (q.queue_.zip q.timeout_timestamp_ns_).length idx with hgt | hle
    · exfalso
      have hdrop : (q.queue_.zip q.timeout_timestamp_ns_).drop idx = [] :=
        List.drop_eq_nil_of_le (Nat.le_of_lt hgt)
      rw [hdrop] at hlenq
      simp only [List.dropWhile_nil, List.length_nil, Nat.add_zero,
        List.length_take] at hlenq
      rw [hlenq] at hlt
      omega
    · have htake : ((q.queue_.zip q.timeout_timestamp_ns_).take idx).length = idx := by
        rw [List.length_take]
        omega
      have hkeepne : ((q.queue_.zip q.timeout_timestamp_ns_).drop idx).dropWhile
          (fun pt => expiredAt now pt.2) ≠ [] := by
        intro h0
        rw [hlenq, h0, htake] at hlt
        simp at hlt
      obtain ⟨kh, kt, hk⟩ := List.exists_cons_of_ne_nil hkeepne
      have hmlen : (((q.queue_.zip q.timeout_timestamp_ns_).take idx).map
          Prod.snd).length = idx := by
        rw [List.length_map]
        exact htake
      have hT : (q.ApplyPolicy now idx).1.TimeoutAt idx = kh.2 := by
        rw [PolicyQueue.TimeoutAt, if_pos hlt, hts, hk, List.map_append]
        have h2 := getD_append_length
          (((q.queue_.zip q.timeout_timestamp_ns_).take idx).map Prod.snd)
          ((kh :: kt).map Prod.snd) 0
        rw [hmlen] at h2
        rw [h2]
        rfl
      have hpred : expiredAt now kh.2 = false :=
        dropWhile_cons_pred_false (fun pt : Payload × Nat => expiredAt now pt.2) _ _ _ hk
      rw [hT]
      simp [expiredAt] at hpred
      omega

/-! Lemmas on the cursor-position level walk. -/

theorem applyCursorLevels_keys (now : Nat) :
    ∀ (qs : List (Nat × PolicyQueue)) (idx : Nat),
    (applyCursorLevels now qs idx).1.map Prod.fst = qs.map Prod.fst := by
  intro qs
  induction qs with
  | nil => intro idx; rfl
  | cons kq rest ih =>
    intro idx
    obtain ⟨k, q⟩ := kq
    simp only [applyCursorLevels]
    split
    · simp
    · simp [ih 0]

theorem applyCursorLevels_some (now : Nat) :
    ∀ (qs : List (Nat × PolicyQueue)) (idx k i : Nat),
    (applyCursorLevels now qs idx).2.1 = some (k, i) →
    ∃ (A : List (Nat × PolicyQueue)) (q0 : PolicyQueue)
      (B : List (Nat × PolicyQueue)), (applyCursorLevels now qs idx).1 =
        A ++ (k, (q0.ApplyPolicy now i).1) :: B ∧
      (q0.ApplyPolicy now i).2.2.2 = true := by
  intro qs
  induction qs with
  | nil => intro idx k i h; simp [applyCursorLevels] at h
  | cons kq rest ih =>
    intro idx k i h
    obtain ⟨k0, q0⟩ := kq
    by_cases hco : (q0.ApplyPolicy now idx).2.2.2 = true
    · simp only [applyCursorLevels, if_pos hco] at h ⊢
      simp only [Option.some.injEq, Prod.mk.injEq] at h
      obtain ⟨rfl, rfl⟩ := h
      exact ⟨[], q0, rest, by simp, hco⟩
    · simp only [applyCursorLevels, if_neg hco] at h ⊢
      obtain ⟨A, qq, B, hA, hok⟩ := ih 0 k i h
      exact ⟨(k0, (q0.ApplyPolicy now idx).1) :: A, qq, B, by simp [hA], hok⟩

theorem applyCursorLevels_none_head (now idx : Nat) (k0 : Nat) (q0 : PolicyQueue)
    (rest : List (Nat × PolicyQueue))
    (h : (applyCursorLevels now ((k0, q0) :: rest) idx).2.1 = none) :
    (q0.ApplyPolicy now idx).2.2.2 = false ∧
    (applyCursorLevels now ((k0, q0) :: rest) idx).1 =
      (k0, (q0.ApplyPolicy now idx).1) :: (applyCursorLevels now rest 0).1 := by
  by_cases hco : (q0.ApplyPolicy now idx).2.2.2 = true
  · exfalso
    simp only [applyCursorLevels, if_pos hco] at h
    exact Option.some_ne_none _ h
  · have hfalse : (q0.ApplyPolicy now idx).2.2.2 = false := by
      cases hx : (q0.ApplyPolicy now idx).2.2.2
      · rfl
      · exact absurd hx hco
    refine ⟨hfalse, ?_⟩
    simp only [applyCursorLevels, if_neg hco]

theorem lookupLevel_append_not_mem (A B : List (Nat × PolicyQueue)) (k : Nat)
    (h : k ∉ A.map Prod.fst) : lookupLevel (A ++ B) k = lookupLevel B k := by
  induction A with
  | nil => rfl
  | cons a t ih =>
    simp only [List.map_cons, List.mem_cons] at h
    push_neg at h
    simp only [List.cons_append, lookupLevel]
    rw [if_neg (fun he => h.1 he.symm)]
    exact ih h.2

theorem lookupLevel_none_of_not_mem (A : List (Nat × PolicyQueue)) (k : Nat)
    (h : k ∉ A.map Prod.fst) : lookupLevel A k = none := by
  have h2 := lookupLevel_append_not_mem A [] k h
  simpa [lookupLevel] using h2

theorem applyPolicy_not_ok_timeout (q : PolicyQueue) (now idx : Nat)
    (h : (q.ApplyPolicy now idx).2.2.2 = false) :
    (q.ApplyPolicy now idx).1.TimeoutAt idx = 0 := by
  have he := applyPolicy_ok_eq q now idx
  rw [h] at he
  have hnlt : ¬ idx < (q.ApplyPolicy now idx).1.Size := by
    intro hlt
    simp [hlt] at he
  rw [PolicyQueue.TimeoutAt, if_neg]
  intro hlt
  exact hnlt (lt_of_lt_of_le hlt (Nat.le_add_right _ _))

theorem applyCursorLevels_nil (now idx : Nat) :
    applyCursorLevels now [] idx = ([], none, 0, 0) := rfl

theorem applyPolicyAtCursor_unexpired (pq : PriorityQueue) (now : Nat)
    (hnd : (pq.queues_.map Prod.fst).Nodup) :
    (pq.ApplyPolicyAtCursor now).1.TimeoutAtCursor = 0 ∨
      now < (pq.ApplyPolicyAtCursor now).1.TimeoutAtCursor := by
  have hsplit : pq.queues_.takeWhile
        (fun kq => decide (kq.1 ≠ pq.pending_cursor_.curr_level_)) ++
      pq.queues_.dropWhile
        (fun kq => decide (kq.1 ≠ pq.pending_cursor_.curr_level_)) = pq.queues_ :=
    List.takeWhile_append_dropWhile _ _
  have hpre : pq.pending_cursor_.curr_level_ ∉
      (pq.queues_.takeWhile
        (fun kq => decide (kq.1 ≠ pq.pending_cursor_.curr_level_))).map Prod.fst := by
    intro hmem
    obtain ⟨x, hx, hx1⟩ := List.mem_map.mp hmem
    have hxp := List.mem_takeWhile_imp hx
    simp only [decide_eq_true_eq] at hxp
    exact hxp hx1
  simp only [PriorityQueue.ApplyPolicyAtCursor, PriorityQueue.TimeoutAtCursor]
  rcases hres : (applyCursorLevels now
      (pq.queues_.dropWhile (fun kq => kq.1 ≠ pq.pending_cursor_.curr_level_))
      pq.pending_cursor_.queue_idx_).2.1 with _ | ⟨k, i⟩
  · simp only [hres]
    cases hrw : pq.queues_.dropWhile
        (fun kq => decide (kq.1 ≠ pq.pending_cursor_.curr_level_)) with
    | nil =>
      left
      rw [applyCursorLevels_nil, List.append_nil,
        lookupLevel_none_of_not_mem _ _ hpre]
    | cons kq rest0 =>
      obtain ⟨k0, q0⟩ := kq
      rw [hrw] at hres
      have hstep := applyCursorLevels_none_head now
        pq.pending_cursor_.queue_idx_ k0 q0 rest0 hres
      have hk0 : k0 = pq.pending_cursor_.curr_level_ := by
        have hpf := dropWhile_cons_pred_false
          (fun kq : Nat × PolicyQueue =>
            decide (kq.1 ≠ pq.pending_cursor_.curr_level_))
          pq.queues_ (k0, q0) rest0 hrw
        simpa using hpf
      left
      rw [hstep.2, lookupLevel_append_not_mem _ _ _ hpre]
      simp only [lookupLevel, hk0, if_pos]
      exact applyPolicy_not_ok_timeout q0 now _ hstep.1
  · simp only [hres]
    obtain ⟨A, q0, B, hA, hok⟩ := applyCursorLevels_some now _ _ k i hres
    have hkeys := applyCursorLevels_keys now
      (pq.queues_.dropWhile (fun kq => decide (kq.1 ≠ pq.pending_cursor_.curr_level_)))
      pq.pending_cursor_.queue_idx_
    have hndPW : ((pq.queues_.takeWhile
          (fun kq => decide (kq.1 ≠ pq.pending_cursor_.curr_level_))).map Prod.fst ++
        ((applyCursorLevels now
          (pq.queues_.dropWhile (fun kq => decide (kq.1 ≠ pq.pending_cursor_.curr_level_)))
          pq.pending_cursor_.queue_idx_).1).map Prod.fst).Nodup := by
      rw [hkeys, ← List.map_append, hsplit]
      exact hnd
    have hw1keys : (((applyCursorLevels now
        (pq.queues_.dropWhile (fun kq => decide (kq.1 ≠ pq.pending_cursor_.curr_level_)))
        pq.pending_cursor_.queue_idx_).1).map Prod.fst) =
        A.map Prod.fst ++ k :: B.map Prod.fst := by
      rw [hA]
      simp
    have hkpre : k ∉ (pq.queues_.takeWhile
        (fun kq => decide (kq.1 ≠ pq.pending_cursor_.curr_level_))).map Prod.fst := by
      intro hmem
      have hdisj := (List.nodup_append.mp hndPW).2.2
      refine hdisj hmem ?_
      rw [hw1keys]
      exact List.mem_append_right _ (List.mem_cons_self _ _)
    have hkA : k ∉ A.map Prod.fst := by
      have hw1nd := (List.nodup_append.mp hndPW).2.1
      rw [hw1keys] at hw1nd
      have hdisj := (List.nodup_append.mp hw1nd).2.2
      intro hmem
      exact hdisj hmem (List.mem_cons_self _ _)
    rw [lookupLevel_append_not_mem _ _ _ hkpre, hA,
      lookupLevel_append_not_mem _ _ _ hkA]
    simp only [lookupLevel, if_pos]
    exact applyPolicy_ok_unexpired q0 now i

theorem zip_map_fst_sublist (l₁ : List Payload) (l₂ : List Nat) :
    ((l₁.zip l₂).map Prod.fst).Sublist l₁ := by
  induction l₁ generalizing l₂ with
  | nil => simp
  | cons a t ih =>
    cases l₂ with
    | nil => simp
    | cons b u =>
      simp only [List.zip_cons_cons, List.map_cons]
      exact List.Sublist.cons₂ a (ih u)

/-- C2: with timeout action `REJECT`, `ApplyPolicy` at `idx` moves the
maximal run of expired entries beginning at `idx` (each with nonzero stored
timestamp `≤ now`) to the rejected buffer in order, erasing them from
`active` and the parallel timestamp sequence while `idx` stays put (the run
is exactly the `takeWhile` of the suffix at `idx`, ending at the first
non-expired entry or the end of `active`); the rejected count grows by the
run's length and the rejected batch size by the sum of the run's batch
sizes, and `delayed` is untouched.  Consequently, whenever
`apply_policy_at_cursor` returns with `cursor_end()` false, the payload at
the cursor has timeout timestamp 0 or strictly greater than `now_ns()`. -/
theorem C2_reject_apply_policy :
    (∀ (q : PolicyQueue) (now idx : Nat),
      q.timeout_action_ = TimeoutAction.REJECT →
      (q.ApplyPolicy now idx).1.queue_ =
        ((q.queue_.zip q.timeout_timestamp_ns_).take idx ++
          ((q.queue_.zip q.timeout_timestamp_ns_).drop idx).dropWhile
            (fun pt => expiredAt now pt.2)).map Prod.fst ∧
      (q.ApplyPolicy now idx).1.timeout_timestamp_ns_ =
        ((q.queue_.zip q.timeout_timestamp_ns_).take idx ++
          ((q.queue_.zip q.timeout_timestamp_ns_).drop idx).dropWhile
            (fun pt => expiredAt now pt.2)).map Prod.snd ∧
      (q.ApplyPolicy now idx).1.rejected_queue_ = q.rejected_queue_ ++
        (((q.queue_.zip q.timeout_timestamp_ns_).drop idx).takeWhile
          (fun pt => expiredAt now pt.2)).map Prod.fst ∧
      (q.ApplyPolicy now idx).1.delayed_queue_ = q.delayed_queue_ ∧
      (q.ApplyPolicy now idx).2.1 =
        (((q.queue_.zip q.timeout_timestamp_ns_).drop idx).takeWhile
          (fun pt => expiredAt now pt.2)).length ∧
      (q.ApplyPolicy now idx).2.2.1 =
        ((((q.queue_.zip q.timeout_timestamp_ns_).drop idx).takeWhile
          (fun pt => expiredAt now pt.2)).map
            (fun pt => pt.1.batch_size)).sum) ∧
    (∀ (pq : PriorityQueue) (now : Nat),
      (pq.queues_.map Prod.fst).Nodup →
      (pq.ApplyPolicyAtCursor now).1.CursorEnd = false →
      ((pq.ApplyPolicyAtCursor now).1.TimeoutAtCursor = 0 ∨
        now < (pq.ApplyPolicyAtCursor now).1.TimeoutAtCursor)) := by
  refine ⟨?_, ?_⟩
  · intro q now idx hact
    have h := applyPolicy_components q now idx
    rw [hact] at h
    refine ⟨h.1, h.2.1, ?_, ?_, ?_, ?_⟩
    · simpa using h.2.2.2.1
    · simpa using h.2.2.1
    · simpa using h.2.2.2.2.1
    · simpa using h.2.2.2.2.2
  · intro pq now hnd _
    exact applyPolicyAtCursor_unexpired pq now hnd

/-- C2 witness: both expired entries of a REJECT level are moved to
`rejected` in enqueue order without advancing the index; and after
`apply_policy_at_cursor` on a queue keeping one deadline-free payload, the
cursor is not at its end and the payload at the cursor has timestamp 0. -/
theorem C2_reject_apply_policy_witness :
    exRejectQueue.timeout_action_ = TimeoutAction.REJECT ∧
    (exRejectQueue.ApplyPolicy 2000000 0).1.rejected_queue_ =
      exRejectQueue.rejected_queue_ ++
        (((exRejectQueue.queue_.zip exRejectQueue.timeout_timestamp_ns_).drop 0).takeWhile
          (fun pt => expiredAt 2000000 pt.2)).map Prod.fst ∧
    (exPQReject.queues_.map Prod.fst).Nodup ∧
    (exPQReject.ApplyPolicyAtCursor 2000000).1.CursorEnd = false ∧
    ((exPQReject.ApplyPolicyAtCursor 2000000).1.TimeoutAtCursor = 0 ∨
      2000000 < (exPQReject.ApplyPolicyAtCursor 2000000).1.TimeoutAtCursor) := by
  refine ⟨by decide, ?_, by decide, by decide, ?_⟩
  · exact (C2_reject_apply_policy.1 exRejectQueue 2000000 0 (by decide)).2.2.1
  · exact C2_reject_apply_policy.2 exPQReject 2000000 (by decide) (by decide)

/-- C3: with timeout action `DELAY`, `ApplyPolicy` moves the expired run at
`idx` to the tail of `delayed` in order, erasing it from `active` and the
timestamp sequence; nothing is rejected, `Size` is preserved (entries still
count), and delayed positions read timeout 0 (`TimeoutAt` past `active` is
0), so they can never expire again: every later `ApplyPolicy` only appends
to `delayed` and draws its newly rejected entries from `active`, `Enqueue`
leaves `delayed` untouched, and `Dequeue` still dispatches the `delayed`
front — delay is one-shot. -/
theorem C3_delay_apply_policy :
    (∀ (q : PolicyQueue) (now idx : Nat),
      q.timeout_action_ = TimeoutAction.DELAY →
      (q.ApplyPolicy now idx).1.delayed_queue_ = q.delayed_queue_ ++
        (((q.queue_.zip q.timeout_timestamp_ns_).drop idx).takeWhile
          (fun pt => expiredAt now pt.2)).map Prod.fst ∧
      (q.ApplyPolicy now idx).1.queue_ =
        ((q.queue_.zip q.timeout_timestamp_ns_).take idx ++
          ((q.queue_.zip q.timeout_timestamp_ns_).drop idx).dropWhile
            (fun pt => expiredAt now pt.2)).map Prod.fst ∧
      (q.ApplyPolicy now idx).1.timeout_timestamp_ns_ =
        ((q.queue_.zip q.timeout_timestamp_ns_).take idx ++
          ((q.queue_.zip q.timeout_timestamp_ns_).drop idx).dropWhile
            (fun pt => expiredAt now pt.2)).map Prod.snd ∧
      (q.ApplyPolicy now idx).1.rejected_queue_ = q.rejected_queue_ ∧
      (q.ApplyPolicy now idx).2.1 = 0 ∧
      (q.ApplyPolicy now idx).2.2.1 = 0 ∧
      (q.timeout_timestamp_ns_.length = q.queue_.length →
        (q.ApplyPolicy now idx).1.Size = q.Size)) ∧
    (∀ (q : PolicyQueue) (j : Nat), q.queue_.length ≤ j → q.TimeoutAt j = 0) ∧
    (∀ (q : PolicyQueue) (now idx : Nat), ∃ l : List Payload,
      (q.ApplyPolicy now idx).1.delayed_queue_ = q.delayed_queue_ ++ l) ∧
    (∀ (q : PolicyQueue) (now idx : Nat), ∃ l : List Payload,
      (q.ApplyPolicy now idx).1.rejected_queue_ = q.rejected_queue_ ++ l ∧
      l.Sublist q.queue_) ∧
    (∀ (q : PolicyQueue) (now : Nat) (p : Payload) (q' : PolicyQueue),
      q.Enqueue now p = Except.ok q' → q'.delayed_queue_ = q.delayed_queue_) ∧
    (∀ (q : PolicyQueue) (now : Nat) (d : Payload) (dt : List Payload),
      q.queue_ = [] → q.delayed_queue_ = d :: dt →
      q.Dequeue now = some (d, { q with delayed_queue_ := dt })) := by
  refine ⟨?_, ?_, ?_, ?_, ?_, ?_⟩
  · intro q now idx hact
    have h := applyPolicy_components q now idx
    rw [hact] at h
    refine ⟨by simpa using h.2.2.1, h.1, h.2.1, by simpa using h.2.2.2.1,
      by simpa using h.2.2.2.2.1, by simpa using h.2.2.2.2.2, ?_⟩
    intro hlen
    have hzlen : (q.queue_.zip q.timeout_timestamp_ns_).length = q.queue_.length := by
      rw [List.length_zip, hlen, Nat.min_self]
    have htw := congrArg List.length
      (List.takeWhile_append_dropWhile
        (fun pt : Payload × Nat => expiredAt now pt.2)
        ((q.queue_.zip q.timeout_timestamp_ns_).drop idx))
    rw [List.length_append, List.length_drop] at htw
    have hq1 : (q.ApplyPolicy now idx).1.queue_.length =
        ((q.queue_.zip q.timeout_timestamp_ns_).take idx).length +
        (((q.queue_.zip q.timeout_timestamp_ns_).drop idx).dropWhile
          (fun pt => expiredAt now pt.2)).length := by
      rw [h.1, List.length_map, List.length_append]
    have hd1 : (q.ApplyPolicy now idx).1.delayed_queue_.length =
        q.delayed_queue_.length +
        (((q.queue_.zip q.timeout_timestamp_ns_).drop idx).takeWhile
          (fun pt => expiredAt now pt.2)).length := by
      have h3 : (q.ApplyPolicy now idx).1.delayed_queue_ = q.delayed_queue_ ++
          (((q.queue_.zip q.timeout_timestamp_ns_).drop idx).takeWhile
            (fun pt => expiredAt now pt.2)).map Prod.fst := by
        simpa using h.2.2.1
      rw [h3, List.length_append, List.length_map]
    have h5 := List.length_take idx (q.queue_.zip q.timeout_timestamp_ns_)
    simp only [PolicyQueue.Size, hq1, hd1]
    omega
  · intro q j hj
    rw [PolicyQueue.TimeoutAt, if_neg (Nat.not_lt.mpr hj)]
  · intro q now idx
    exact ⟨_, (applyPolicy_components q now idx).2.2.1⟩
  · intro q now idx
    refine ⟨_, (applyPolicy_components q now idx).2.2.2.1, ?_⟩
    split
    · have h1 : ((((q.queue_.zip q.timeout_timestamp_ns_).drop idx).takeWhile
          (fun pt => expiredAt now pt.2)).map Prod.fst).Sublist
          (((q.queue_.zip q.timeout_timestamp_ns_).drop idx).map Prod.fst) :=
        List.Sublist.map Prod.fst (List.takeWhile_sublist _)
      have h2 : ((((q.queue_.zip q.timeout_timestamp_ns_).drop idx)).map
          Prod.fst).Sublist ((q.queue_.zip q.timeout_timestamp_ns_).map Prod.fst) :=
        List.Sublist.map Prod.fst (List.drop_sublist _ _)
      exact (h1.trans h2).trans (zip_map_fst_sublist _ _)
    · exact List.nil_sublist _
  · intro q now p q' h
    rw [PolicyQueue.Enqueue] at h
    split at h
    · exact absurd h (by simp)
    · rw [Except.ok.injEq] at h
      subst h
      rfl
  · intro q now d dt hq hd
    rw [PolicyQueue.Dequeue]
    simp only [hq, hd]

/-- C3 witness: the two expired entries of a DELAY level move to the tail of
`delayed` in order, the size is preserved, nothing is rejected, and the
resulting delayed positions read timeout 0. -/
theorem C3_delay_apply_policy_witness :
    exDelayQueue.timeout_action_ = TimeoutAction.DELAY ∧
    exDelayQueue.timeout_timestamp_ns_.length = exDelayQueue.queue_.length ∧
    (exDelayQueue.ApplyPolicy 2000000 0).1.delayed_queue_ =
      exDelayQueue.delayed_queue_ ++
        (((exDelayQueue.queue_.zip exDelayQueue.timeout_timestamp_ns_).drop 0).takeWhile
          (fun pt => expiredAt 2000000 pt.2)).map Prod.fst ∧
    (exDelayQueue.ApplyPolicy 2000000 0).1.Size = exDelayQueue.Size ∧
    ((exDelayQueue.ApplyPolicy 2000000 0).1.queue_.length ≤ 0 →
      (exDelayQueue.ApplyPolicy 2000000 0).1.TimeoutAt 0 = 0) := by
  refine ⟨by decide, by decide, ?_, ?_, ?_⟩
  · exact (C3_delay_apply_policy.1 exDelayQueue 2000000 0 (by decide)).1
  · exact (C3_delay_apply_policy.1 exDelayQueue 2000000 0
      (by decide)).2.2.2.2.2.2 (by decide)
  · exact C3_delay_apply_policy.2.1 (exDelayQueue.ApplyPolicy 2000000 0).1 0

theorem policy_dequeue_cases (q : PolicyQueue) (now : Nat) (p : Payload)
    (q' : PolicyQueue) (h : q.Dequeue now = some (p, q')) :
    (∃ t, q.queue_ = p :: t ∧
      q' = { q with queue_ := t,
                    timeout_timestamp_ns_ := q.timeout_timestamp_ns_.tail }) ∨
    (∃ dt, q.delayed_queue_ = p :: dt ∧
      q' = { q with delayed_queue_ := dt } ∧
      (q.queue_ = [] ∨
       (q.queue_ ≠ [] ∧ q.timeout_timestamp_ns_.headD 0 ≠ 0 ∧
        q.timeout_timestamp_ns_.headD 0 ≤ now))) := by
  cases hq : q.queue_ with
  | cons a t =>
    rw [PolicyQueue.Dequeue] at h
    simp only [hq] at h
    by_cases hts : q.timeout_timestamp_ns_.headD 0 = 0 ∨
        now < q.timeout_timestamp_ns_.headD 0
    · rw [if_pos hts] at h
      simp only [Option.some.injEq, Prod.mk.injEq] at h
      left
      exact ⟨t, by rw [h.1], h.2.symm⟩
    · rw [if_neg hts] at h
      push_neg at hts
      cases hd : q.delayed_queue_ with
      | nil => simp [hd] at h
      | cons d dt =>
        simp only [hd, Option.some.injEq, Prod.mk.injEq] at h
        right
        exact ⟨dt, by rw [h.1], h.2.symm, Or.inr ⟨by simp, hts.1, hts.2⟩⟩
  | nil =>
    rw [PolicyQueue.Dequeue] at h
    simp only [hq] at h
    cases hd : q.delayed_queue_ with
    | nil => simp [hd] at h
    | cons d dt =>
      simp only [hd, Option.some.injEq, Prod.mk.injEq] at h
      right
      exact ⟨dt, by rw [h.1], h.2.symm, Or.inl rfl⟩

theorem policy_dequeue_expired (q : PolicyQueue) (now : Nat) (a : Payload)
    (t : List Payload) (hq : q.queue_ = a :: t)
    (hts : q.timeout_timestamp_ns_.headD 0 ≠ 0)
    (hle : q.timeout_timestamp_ns_.headD 0 ≤ now) :
    q.Dequeue now = (match q.delayed_queue_ with
      | d :: dt => some (d, { q with delayed_queue_ := dt })
      | [] => none) := by
  rw [PolicyQueue.Dequeue]
  simp only [hq]
  rw [if_neg]
  push_neg
  exact ⟨hts, hle⟩

theorem levelsContents_append (A B : List (Nat × PolicyQueue)) :
    levelsContents (A ++ B) = levelsContents A ++ levelsContents B := by
  induction A with
  | nil => rfl
  | cons a t ih => simp [levelsContents, ih]

theorem levelsContents_nil_of_empty (A : List (Nat × PolicyQueue))
    (h : ∀ x ∈ A, x.2.Size = 0) : levelsContents A = [] := by
  induction A with
  | nil => rfl
  | cons a t ih =>
    have ha := h a (List.mem_cons_self _ _)
    rw [PolicyQueue.Size] at ha
    have hq : a.2.queue_ = [] := List.length_eq_zero.mp (by omega)
    have hd : a.2.delayed_queue_ = [] := List.length_eq_zero.mp (by omega)
    simp [levelsContents, PolicyQueue.contents, hq, hd]
    exact ih (fun x hx => h x (List.mem_cons_of_mem _ hx))

theorem dequeueLevels_eq (now : Nat) :
    ∀ (qs : List (Nat × PolicyQueue)) (p : Payload)
      (qs' : List (Nat × PolicyQueue)),
    dequeueLevels now qs = some (p, qs') →
    ∃ pre k q q' post, qs = pre ++ (k, q) :: post ∧
      qs' = pre ++ (k, q') :: post ∧
      (∀ x ∈ pre, x.2.Size = 0) ∧ q.Size ≠ 0 ∧ q.Dequeue now = some (p, q') := by
  intro qs
  induction qs with
  | nil => intro p qs' h; simp [dequeueLevels] at h
  | cons kq rest ih =>
    intro p qs' h
    obtain ⟨k0, q0⟩ := kq
    by_cases hsz : q0.Size = 0
    · rw [dequeueLevels, if_pos hsz] at h
      cases hrec : dequeueLevels now rest with
      | none => rw [hrec] at h; exact absurd h (by simp)
      | some pr =>
        obtain ⟨p0, rest'⟩ := pr
        rw [hrec] at h
        simp only [Option.some.injEq, Prod.mk.injEq] at h
        obtain ⟨rfl, rfl⟩ := h
        obtain ⟨pre, k, q, q', post, h1, h2, h3, h4, h5⟩ := ih p0 rest' hrec
        refine ⟨(k0, q0) :: pre, k, q, q', post, ?_, ?_, ?_, h4, h5⟩
        · rw [List.cons_append, h1]
        · rw [List.cons_append, h2]
        · intro x hx
          rcases List.mem_cons.mp hx with rfl | hx2
          · exact hsz
          · exact h3 x hx2
    · rw [dequeueLevels, if_neg hsz] at h
      cases hdq : q0.Dequeue now with
      | none => rw [hdq] at h; exact absurd h (by simp)
      | some pr =>
        obtain ⟨p0, q0'⟩ := pr
        rw [hdq] at h
        simp only [Option.some.injEq, Prod.mk.injEq] at h
        obtain ⟨rfl, rfl⟩ := h
        exact ⟨[], k0, q0, q0', rest, rfl, rfl, by simp, hsz, hdq⟩

theorem dequeueLevels_skip (now : Nat) :
    ∀ (pre : List (Nat × PolicyQueue)) (k : Nat) (q : PolicyQueue)
      (post : List (Nat × PolicyQueue)),
    (∀ x ∈ pre, x.2.Size = 0) → q.Size ≠ 0 →
    dequeueLevels now (pre ++ (k, q) :: post) =
      (q.Dequeue now).map (fun pq => (pq.1, pre ++ (k, pq.2) :: post)) := by
  intro pre
  induction pre with
  | nil =>
    intro k q post _ hq
    rw [List.nil_append, dequeueLevels, if_neg hq]
    cases q.Dequeue now with
    | none => rfl
    | some pr => rfl
  | cons kq rest ih =>
    intro k q post hpre hq
    have h0 := hpre kq (List.mem_cons_self _ _)
    rw [List.cons_append]
    obtain ⟨k0, q0⟩ := kq
    rw [dequeueLevels, if_pos h0]
    rw [ih k q post (fun x hx => hpre x (List.mem_cons_of_mem _ hx)) hq]
    cases hdq : q.Dequeue now with
    | none => rfl
    | some pr => rfl

theorem pq_dequeue_ok (pq : PriorityQueue) (now : Nat) (p : Payload)
    (pq' : PriorityQueue) (h : pq.Dequeue now = (Except.ok p, pq')) :
    pq.size_ ≠ 0 ∧ dequeueLevels now pq.queues_ = some (p, pq'.queues_) := by
  rw [PriorityQueue.Dequeue] at h
  split at h
  · exact absurd h (by simp)
  case isFalse hsz =>
    cases hdl : dequeueLevels now pq.queues_ with
    | none => rw [hdl] at h; exact absurd h (by simp)
    | some pr =>
      obtain ⟨p0, qs'⟩ := pr
      rw [hdl] at h
      simp only [Prod.mk.injEq, Except.ok.injEq] at h
      obtain ⟨rfl, rfl⟩ := h
      exact ⟨hsz, rfl⟩

theorem drain_stuck :
    ∀ (nows : List Nat) (pq : PriorityQueue) (pre : List (Nat × PolicyQueue))
      (k : Nat) (q : PolicyQueue) (post : List (Nat × PolicyQueue)),
    pq.queues_ = pre ++ (k, q) :: post →
    (∀ x ∈ pre, x.2.Size = 0) →
    q.queue_ ≠ [] →
    q.timeout_timestamp_ns_.headD 0 ≠ 0 →
    (∀ m ∈ nows, q.timeout_timestamp_ns_.headD 0 ≤ m) →
    (pq.drain nows).Sublist q.delayed_queue_ := by
  intro nows
  induction nows with
  | nil =>
    intro pq pre k q post _ _ _ _ _
    exact List.nil_sublist _
  | cons now rest ih =>
    intro pq pre k q post hqs hpre hqne hts hbound
    by_cases hsz : pq.size_ = 0
    · have hde : pq.Dequeue now = (Except.error Status.Empty, pq.invalidate) := by
        rw [PriorityQueue.Dequeue, if_pos hsz]
      simp only [PriorityQueue.drain, hde]
      exact List.nil_sublist _
    · obtain ⟨a, t, hat⟩ : ∃ a t, q.queue_ = a :: t := by
        cases hq0 : q.queue_ with
        | nil => exact absurd hq0 hqne
        | cons a t => exact ⟨a, t, rfl⟩
      have hdq := policy_dequeue_expired q now a t hat hts
        (hbound now (List.mem_cons_self _ _))
      have hdl : dequeueLevels now pq.queues_ =
          (q.Dequeue now).map (fun pq2 => (pq2.1, pre ++ (k, pq2.2) :: post)) := by
        rw [hqs]
        exact dequeueLevels_skip now pre k q post hpre
          (by rw [PolicyQueue.Size, hat]; simp)
      cases hd : q.delayed_queue_ with
      | nil =>
        rw [hd] at hdq
        have hnone : dequeueLevels now pq.queues_ = none := by
          rw [hdl, hdq]
          rfl
        have hde : pq.Dequeue now = (Except.error Status.Internal, pq.invalidate) := by
          rw [PriorityQueue.Dequeue, if_neg hsz, hnone]
        simp only [PriorityQueue.drain, hde]
        exact List.nil_sublist _
      | cons d dt =>
        rw [hd] at hdq
        have hsome : dequeueLevels now pq.queues_ =
            some (d, pre ++ (k, { q with delayed_queue_ := dt }) :: post) := by
          rw [hdl, hdq]
          rfl
        have hde : pq.Dequeue now = (Except.ok d,
            { pq.invalidate with
              queues_ := pre ++ (k, { q with delayed_queue_ := dt }) :: post,
              size_ := pq.size_ - 1,
              front_priority_level_ :=
                (firstNonEmptyKey
                  (pre ++ (k, { q with delayed_queue_ := dt }) :: post)).getD
                  pq.front_priority_level_ }) := by
          rw [PriorityQueue.Dequeue, if_neg hsz, hsome]
        simp only [PriorityQueue.drain, hde]
        refine List.Sublist.cons₂ d ?_
        refine ih _ pre k { q with delayed_queue_ := dt } post rfl hpre hqne hts ?_
        intro m hm
        exact hbound m (List.mem_cons_of_mem _ hm)

/-- C1: for every sequence of successive `Dequeue` calls with no intervening
`Enqueue`, under the monotonic clock, the payloads returned are a sublist of
the queue's dispatch order `contents` — priority levels in ascending map
order, within a level the `active` sub-sequence entirely before the
`delayed` sub-sequence, each in FIFO enqueue order — i.e. any two returned
payloads respect strict priority-major, FIFO-within-level,
active-before-delayed order. -/
theorem C1_dequeue_order :
    ∀ (nows : List Nat) (pq : PriorityQueue),
    nows.Pairwise (· ≤ ·) → (pq.drain nows).Sublist pq.contents := by
  intro nows
  induction nows with
  | nil =>
    intro pq _
    exact List.nil_sublist _
  | cons now rest ih =>
    intro pq hmono
    obtain ⟨hbound, hrest⟩ := List.pairwise_cons.mp hmono
    rcases hde : pq.Dequeue now with ⟨st, pq2⟩
    cases st with
    | error e =>
      simp only [PriorityQueue.drain, hde]
      exact List.nil_sublist _
    | ok p =>
      obtain ⟨hsz, hdl⟩ := pq_dequeue_ok pq now p pq2 hde
      obtain ⟨pre, k, q, q', post, h1, h2, h3, h4, h5⟩ :=
        dequeueLevels_eq now pq.queues_ p pq2.queues_ hdl
      have hcont : pq.contents = q.contents ++ levelsContents post := by
        rw [PriorityQueue.contents, h1, levelsContents_append,
          levelsContents_nil_of_empty pre h3, List.nil_append]
        simp only [levelsContents]
      have hcont2 : pq2.contents = q'.contents ++ levelsContents post := by
        rw [PriorityQueue.contents, h2, levelsContents_append,
          levelsContents_nil_of_empty pre h3, List.nil_append]
        simp only [levelsContents]
      simp only [PriorityQueue.drain, hde]
      rcases policy_dequeue_cases q now p q' h5 with
        ⟨t, hqt, hq'⟩ | ⟨dt, hdt, hq', hcase⟩
      · have heq : pq.contents = p :: pq2.contents := by
          rw [hcont, hcont2, hq']
          simp [PolicyQueue.contents, hqt]
        rw [heq]
        exact List.Sublist.cons₂ p (ih pq2 hrest)
      · rcases hcase with hqnil | ⟨hqne, hts, htsle⟩
        · have heq : pq.contents = p :: pq2.contents := by
            rw [hcont, hcont2, hq']
            simp [PolicyQueue.contents, hqnil, hdt]
          rw [heq]
          exact List.Sublist.cons₂ p (ih pq2 hrest)
        · have hq'q : q'.queue_ = q.queue_ := by rw [hq']
          have hq'ts : q'.timeout_timestamp_ns_ = q.timeout_timestamp_ns_ := by
            rw [hq']
          have hq'd : q'.delayed_queue_ = dt := by rw [hq']
          have hstuck := drain_stuck rest pq2 pre k q' post h2 h3
            (by rw [hq'q]; exact hqne) (by rw [hq'ts]; exact hts)
            (fun m hm => by rw [hq'ts]; exact le_trans htsle (hbound m hm))
          have hsub1 : (PriorityQueue.drain pq2 rest).Sublist dt := by
            rw [← hq'd]
            exact hstuck
          have hqc : q.contents = q.queue_ ++ p :: dt := by
            rw [PolicyQueue.contents, hdt]
          rw [hcont, hqc, List.append_assoc]
          have s1 : (p :: PriorityQueue.drain pq2 rest).Sublist (p :: dt) :=
            List.Sublist.cons₂ p hsub1
          have s2 : (p :: dt).Sublist ((p :: dt) ++ levelsContents post) :=
            List.sublist_append_left _ _
          have s3 : ((p :: dt) ++ levelsContents post).Sublist
              (q.queue_ ++ ((p :: dt) ++ levelsContents post)) :=
            List.sublist_append_right _ _
          exact (s1.trans s2).trans s3


/-- C1 witness: draining a concrete two-level queue with three clock reads
respects the dispatch order. -/
theorem C1_dequeue_order_witness :
    ([0, 0, 0] : List Nat).Pairwise (· ≤ ·) ∧
    (exPQTwoLevels.drain [0, 0, 0]).Sublist exPQTwoLevels.contents :=
  ⟨by decide, C1_dequeue_order [0, 0, 0] exPQTwoLevels (by decide)⟩
